import Mathlib

/-!
Verification of the supervisor/worker coordination core of the
deep-research workflow.  The Lean definitions below are a shallow
embedding of the Python sources:

* `multi_agent_supervisor.py` — the supervisor planning/executing loop,
* `research_agent.py`         — the worker (researcher) loop,
* `research_agent_scope.py`   — the scoping stage,
* `utils.py`                  — the search-gateway adapter.

External collaborators (the language-model gateway, the search API and
the per-worker runs seen from the supervisor) are modelled as function
parameters; everything else is translated directly from the source.
LangGraph `Command(update=...)` dictionaries are modelled as explicit
update records together with an `apply` function implementing the
declared reducers (`add_messages` / `operator.add` append, plain fields
overwrite).
-/

namespace DeepResearch

/-- Message roles of the LangChain message classes used by the code
(`SystemMessage`, `HumanMessage`, assistant/`AIMessage`, `ToolMessage`). -/
inductive Role where
  | system
  | human
  | ai
  | tool
deriving DecidableEq

/-- Arguments of a tool call.  `ConductResearch` reads
`args["research_topic"]`, `think_tool` reads `args["reflection"]`. -/
structure ToolArgs where
  research_topic : String
  reflection : String
deriving DecidableEq

/-- A tool call emitted by an assistant message: tool name, structured
arguments and correlation id. -/
structure ToolCall where
  name : String
  args : ToolArgs
  id : String
deriving DecidableEq

/-- One transcript message.  `name` and `tool_call_id` are only
meaningful for tool-result messages; `tool_calls` only for assistant
messages. -/
structure Message where
  role : Role
  content : String
  tool_calls : List ToolCall
  name : String
  tool_call_id : String
deriving DecidableEq

/-- Constructor of an assistant (`AIMessage`) message. -/
def mkAIMessage (content : String) (tool_calls : List ToolCall) : Message :=
  { role := Role.ai, content := content, tool_calls := tool_calls,
    name := "", tool_call_id := "" }

/-- Constructor of a `HumanMessage`. -/
def mkHumanMessage (content : String) : Message :=
  { role := Role.human, content := content, tool_calls := [],
    name := "", tool_call_id := "" }

/-- Constructor of a `ToolMessage(content=..., name=..., tool_call_id=...)`. -/
def mkToolMessage (content toolName callId : String) : Message :=
  { role := Role.tool, content := content, tool_calls := [],
    name := toolName, tool_call_id := callId }

/-- Default message used to totalise Python's `messages[-1]` indexing. -/
def emptyMessage : Message :=
  { role := Role.ai, content := "", tool_calls := [], name := "", tool_call_id := "" }

/-- `get_notes_from_tool_calls` of `multi_agent_supervisor.py`:
`[tool_msg.content for tool_msg in filter_messages(messages, include_types="tool")]`. -/
def get_notes_from_tool_calls (messages : List Message) : List String :=
  (messages.filter (fun m => m.role == Role.tool)).map (fun m => m.content)

/-- `think_tool` of `utils.py`: returns the Korean confirmation string
prefixed to the reflection text. -/
def think_tool (reflection : String) : String :=
  "성찰이 기록되었습니다: " ++ reflection

/-- `max_researcher_iterations = 6` of `multi_agent_supervisor.py`. -/
def max_researcher_iterations : Nat := 6

/-- `max_concurrent_researchers = 3` of `multi_agent_supervisor.py`
(advisory only, passed to the prompt). -/
def max_concurrent_researchers : Nat := 3

/-- The input dictionary given to `researcher_agent.ainvoke` for one
delegation call. -/
structure ResearcherInput where
  researcher_messages : List Message
  research_topic : String
deriving DecidableEq

/-- The result dictionary of one worker run, as read by the supervisor:
`result.get("compressed_research", ...)` and `result.get("raw_notes", [])`. -/
structure ResearcherResult where
  compressed_research : Option String
  raw_notes : List String
deriving DecidableEq

/-- The initial state built per `ConductResearch` call in
`supervisor_tools`: the private transcript is seeded with exactly one
human message carrying the call's own `research_topic`. -/
def mkResearcherInput (topic : String) : ResearcherInput :=
  { researcher_messages := [mkHumanMessage topic], research_topic := topic }

/-- `SupervisorState` of `state_multi_agent_supervisor.py`.
`research_brief` is optional because the TypedDict key may be absent and
the code reads it through `state.get("research_brief", "")`. -/
structure SupervisorState where
  supervisor_messages : List Message
  research_brief : Option String
  notes : List String
  research_iterations : Nat
  raw_notes : List String
deriving DecidableEq

/-- One `Command(update=...)` dictionary of the supervisor nodes.  A
`none` / `[]` field means the key is absent from the dictionary. -/
structure SupervisorUpdate where
  supervisor_messages : List Message
  research_brief : Option String
  notes : List String
  research_iterations : Option Nat
  raw_notes : List String
deriving DecidableEq

/-- LangGraph reducer application: `supervisor_messages` uses
`add_messages` (append), `notes` and `raw_notes` use `operator.add`
(append), `research_brief` and `research_iterations` overwrite. -/
def applySupervisorUpdate (s : SupervisorState) (u : SupervisorUpdate) : SupervisorState :=
  { supervisor_messages := s.supervisor_messages ++ u.supervisor_messages,
    research_brief :=
      match u.research_brief with
      | none => s.research_brief
      | some b => some b,
    notes := s.notes ++ u.notes,
    research_iterations :=
      match u.research_iterations with
      | none => s.research_iterations
      | some n => n,
    raw_notes := s.raw_notes ++ u.raw_notes }

/-- The `goto` target of `supervisor_tools`: back to the planning node
or `END`. -/
inductive SupervisorGoto where
  | supervisor
  | finish
deriving DecidableEq

/-- Update returned by the `supervisor` (planning) node: the assistant
response is appended and the round counter is incremented by one. -/
def supervisorPlanUpdate (response : Message) (s : SupervisorState) : SupervisorUpdate :=
  { supervisor_messages := [response],
    research_brief := none,
    notes := [],
    research_iterations := some (s.research_iterations + 1),
    raw_notes := [] }

/-- The planning node composed with the reducer application; the LLM
response is a parameter (external inference gateway). -/
def supervisorNode (response : Message) (s : SupervisorState) : SupervisorState :=
  applySupervisorUpdate s (supervisorPlanUpdate response s)

/-- Python `supervisor_messages[-1]`, totalised with a default. -/
def lastSupervisorMessage (s : SupervisorState) : Message :=
  s.supervisor_messages.getLastD emptyMessage

/-- Sequencing of fallible computations: the first error aborts the
whole batch, mirroring the `try` block around tool execution. -/
def sequenceExcept {ε α : Type} : List (Except ε α) → Except ε (List α)
  | [] => Except.ok []
  | x :: xs =>
    match x with
    | Except.error e => Except.error e
    | Except.ok a =>
      match sequenceExcept xs with
      | Except.error e => Except.error e
      | Except.ok xsOk => Except.ok (a :: xsOk)

/-- Completion log of a batch of concurrently dispatched tasks: `order`
lists the task indices in the order the tasks happen to complete, and
each completion carries the task's own result. -/
def scheduleOf {α : Type} (results : List α) (order : List Nat) : List (Nat × α) :=
  order.filterMap (fun i => (results[i]?).map (fun r => (i, r)))

/-- `asyncio.gather` join semantics: after all completions have arrived
(in arbitrary order), the joined list is assembled in task-index order. -/
def asyncGather {α : Type} (completions : List (Nat × α)) (n : Nat) : List α :=
  (List.range n).filterMap
    (fun i => (completions.find? (fun c => c.fst == i)).map (fun c => c.snd))

/-- The `think_tool` calls of the most recent assistant message. -/
def thinkToolCalls (m : Message) : List ToolCall :=
  m.tool_calls.filter (fun tc => tc.name == "think_tool")

/-- The `ConductResearch` calls of the most recent assistant message. -/
def conductResearchCalls (m : Message) : List ToolCall :=
  m.tool_calls.filter (fun tc => tc.name == "ConductResearch")

/-- Tool-result messages of the synchronous `think_tool` calls. -/
def thinkToolMessages (m : Message) : List Message :=
  (thinkToolCalls m).map
    (fun tc => mkToolMessage (think_tool tc.args.reflection) tc.name tc.id)

/-- The fresh worker inputs spawned by one executing step, one per
`ConductResearch` call, in call order. -/
def workerInputs (m : Message) : List ResearcherInput :=
  (conductResearchCalls m).map (fun tc => mkResearcherInput tc.args.research_topic)

/-- The `try` block of `supervisor_tools`: run the `think_tool` calls
synchronously, dispatch one fresh worker per `ConductResearch` call,
join them with `asyncio.gather` (results in call order, whatever the
completion order), and build one `ToolMessage` per call correlated by
id; `raw_notes` blobs are joined per worker.  `workerRun` is the
(fallible) worker gateway, `order` the completion order of the
concurrent workers. -/
def executeTools (workerRun : ResearcherInput → Except String ResearcherResult)
    (order : List Nat) (m : Message) : Except String (List Message × List String) :=
  match sequenceExcept ((workerInputs m).map workerRun) with
  | Except.error e => Except.error e
  | Except.ok results =>
    let tool_results := asyncGather (scheduleOf results order) (conductResearchCalls m).length
    let research_tool_messages :=
      (tool_results.zip (conductResearchCalls m)).map
        (fun p =>
          mkToolMessage ((p.fst.compressed_research).getD "Error synthesizing research report")
            p.snd.name p.snd.id)
    let all_raw_notes := tool_results.map (fun r => String.intercalate "\n" r.raw_notes)
    Except.ok (thinkToolMessages m ++ research_tool_messages, all_raw_notes)

/-- The update of the terminating branch of `supervisor_tools`: notes
extracted from the coordination transcript plus the existing brief. -/
def supervisorEndUpdate (s : SupervisorState) : SupervisorUpdate :=
  { supervisor_messages := [],
    research_brief := some (s.research_brief.getD ""),
    notes := get_notes_from_tool_calls s.supervisor_messages,
    research_iterations := none,
    raw_notes := [] }

/-- The update of the continuing branch of `supervisor_tools`: the tool
result messages and the aggregated raw notes. -/
def supervisorContinueUpdate (tool_messages : List Message)
    (all_raw_notes : List String) : SupervisorUpdate :=
  { supervisor_messages := tool_messages,
    research_brief := none,
    notes := [],
    research_iterations := none,
    raw_notes := all_raw_notes }

/-- `supervisor_tools` of `multi_agent_supervisor.py`: check the
termination criteria first (iteration budget, no tool calls,
`ResearchComplete`); otherwise execute all tool calls, terminating with
partial results if execution raises. -/
def supervisor_tools (workerRun : ResearcherInput → Except String ResearcherResult)
    (order : List Nat) (s : SupervisorState) : SupervisorGoto × SupervisorUpdate :=
  let most_recent_message := lastSupervisorMessage s
  let exceeded_iterations : Bool := decide (max_researcher_iterations ≤ s.research_iterations)
  let no_tool_calls : Bool := most_recent_message.tool_calls.isEmpty
  let research_complete : Bool :=
    most_recent_message.tool_calls.any (fun tc => tc.name == "ResearchComplete")
  if exceeded_iterations || no_tool_calls || research_complete then
    (SupervisorGoto.finish, supervisorEndUpdate s)
  else
    match executeTools workerRun order most_recent_message with
    | Except.error _ => (SupervisorGoto.finish, supervisorEndUpdate s)
    | Except.ok (tool_messages, all_raw_notes) =>
      (SupervisorGoto.supervisor, supervisorContinueUpdate tool_messages all_raw_notes)

/-- Nodes of the supervisor graph (`supervisor`, `supervisor_tools`,
`END`). -/
inductive SupervisorNode where
  | supervisor
  | supervisor_tools
  | finish
deriving DecidableEq

/-- Interpretation of a `goto` target as a graph node. -/
def nodeOfGoto : SupervisorGoto → SupervisorNode
  | SupervisorGoto.supervisor => SupervisorNode.supervisor
  | SupervisorGoto.finish => SupervisorNode.finish

/-- One execution of the `supervisor_tools` node composed with the
reducer application. -/
def supervisorToolsStep (workerRun : ResearcherInput → Except String ResearcherResult)
    (order : List Nat) (s : SupervisorState) : SupervisorNode × SupervisorState :=
  let r := supervisor_tools workerRun order s
  (nodeOfGoto r.fst, applySupervisorUpdate s r.snd)

/-- Small-step relation of the supervisor graph.  The assistant
response of a planning step, the worker gateway and the completion
order of an executing step are arbitrary (external nondeterminism). -/
inductive SupervisorRunStep :
    SupervisorNode × SupervisorState → SupervisorNode × SupervisorState → Prop where
  | plan (response : Message) (s : SupervisorState) :
      SupervisorRunStep (SupervisorNode.supervisor, s)
        (SupervisorNode.supervisor_tools, supervisorNode response s)
  | tools (workerRun : ResearcherInput → Except String ResearcherResult)
      (order : List Nat) (s : SupervisorState) :
      SupervisorRunStep (SupervisorNode.supervisor_tools, s)
        (supervisorToolsStep workerRun order s)

/-- `ResearcherState` of `state_research.py`: the worker's private
transcript, a `tool_call_iterations` counter (documented there as the
iteration count for limiting tool calls), the topic, the compressed
findings and the raw notes. -/
structure ResearcherState where
  researcher_messages : List Message
  tool_call_iterations : Nat
  research_topic : String
  compressed_research : String
  raw_notes : List String
deriving DecidableEq

/-- Nodes of the worker graph of `research_agent.py` (`llm_call`,
`tool_node`, `compress_research`, `END`). -/
inductive ResearcherNode where
  | llm_call
  | tool_node
  | compress_research
  | finish
deriving DecidableEq

/-- The two routing targets of `should_continue`. -/
inductive ResearcherRoute where
  | tool_node
  | compress_research
deriving DecidableEq

/-- Python `researcher_messages[-1]`, totalised with a default. -/
def lastResearcherMessage (s : ResearcherState) : Message :=
  s.researcher_messages.getLastD emptyMessage

/-- `llm_call` of `research_agent.py`: the assistant response (external
inference gateway, here a parameter) is appended to the private
transcript via the `add_messages` reducer; no other key is updated. -/
def llm_call (response : Message) (s : ResearcherState) : ResearcherState :=
  { s with researcher_messages := s.researcher_messages ++ [response] }

/-- The tool-result messages built by `tool_node`: every tool call of
the most recent assistant message is executed sequentially, in the
order received, and paired by call id. -/
def researcherToolMessages (execTool : ToolCall → String)
    (tool_calls : List ToolCall) : List Message :=
  tool_calls.map (fun tc => mkToolMessage (execTool tc) tc.name tc.id)

/-- `tool_node` of `research_agent.py` composed with the reducer: the
tool results are appended to the private transcript; no other key is
updated.  `execTool` is the tool dispatch (search gateway or
`think_tool`). -/
def tool_node (execTool : ToolCall → String) (s : ResearcherState) : ResearcherState :=
  { s with researcher_messages :=
      s.researcher_messages ++
        researcherToolMessages execTool (lastResearcherMessage s).tool_calls }

/-- `should_continue` of `research_agent.py`: continue with `tool_node`
exactly when the last message carries tool calls; the iteration counter
is not consulted. -/
def should_continue (s : ResearcherState) : ResearcherRoute :=
  if (lastResearcherMessage s).tool_calls.isEmpty then ResearcherRoute.compress_research
  else ResearcherRoute.tool_node

/-- The output dictionary of the `compress_research` node. -/
structure CompressOutput where
  compressed_research : String
  raw_notes : List String
deriving DecidableEq

/-- `compress_research` of `research_agent.py`: the compressed synthesis
is the final inference response (a parameter), and the raw notes are the
contents of the tool and assistant messages of the private transcript,
joined with newlines into a single one-element list. -/
def compress_research (response : String) (s : ResearcherState) : CompressOutput :=
  { compressed_research := response,
    raw_notes := [String.intercalate "\n"
      ((s.researcher_messages.filter
          (fun m => m.role == Role.tool || m.role == Role.ai)).map
        (fun m => m.content))] }

/-- One step of the worker graph: `llm_call` followed by the
`should_continue` conditional edge, `tool_node` looping back to
`llm_call`, and `compress_research` ending the run.  The inference
gateway (`llm`, `compressLLM`) and the tool dispatch (`execTool`) are
parameters. -/
def researcherStep (llm : List Message → Message) (execTool : ToolCall → String)
    (compressLLM : List Message → String) :
    ResearcherNode × ResearcherState → ResearcherNode × ResearcherState
  | (ResearcherNode.llm_call, s) =>
    let s1 := llm_call (llm s.researcher_messages) s
    match should_continue s1 with
    | ResearcherRoute.tool_node => (ResearcherNode.tool_node, s1)
    | ResearcherRoute.compress_research => (ResearcherNode.compress_research, s1)
  | (ResearcherNode.tool_node, s) => (ResearcherNode.llm_call, tool_node execTool s)
  | (ResearcherNode.compress_research, s) =>
    let out := compress_research (compressLLM s.researcher_messages) s
    (ResearcherNode.finish,
      { s with compressed_research := out.compressed_research,
               raw_notes := s.raw_notes ++ out.raw_notes })
  | (ResearcherNode.finish, s) => (ResearcherNode.finish, s)

/-- Initial worker state for one delegated topic, as instantiated by
`supervisor_tools`. -/
def initialResearcherState (topic : String) : ResearcherState :=
  { researcher_messages := [mkHumanMessage topic],
    tool_call_iterations := 0,
    research_topic := topic,
    compressed_research := "",
    raw_notes := [] }

/-- Number of assistant messages in a transcript — one per completed
`llm_call` iteration of the worker loop. -/
def countAssistantMessages (messages : List Message) : Nat :=
  (messages.filter (fun m => m.role == Role.ai)).length

/-- `ClarifyWithUser` structured-output schema of `state_scope.py`. -/
structure ClarifyWithUser where
  need_clarification : Bool
  question : String
  verification : String
deriving DecidableEq

/-- `ResearchQuestion` structured-output schema of `state_scope.py`. -/
structure ResearchQuestion where
  research_brief : String
deriving DecidableEq

/-- `AgentState` of `state_scope.py`, restricted to the fields the
scoping nodes read or write. -/
structure AgentState where
  messages : List Message
  research_brief : Option String
  supervisor_messages : List Message
deriving DecidableEq

/-- The `goto` target of `clarify_with_user`. -/
inductive ScopeGoto where
  | write_research_brief
  | finish
deriving DecidableEq

/-- `clarify_with_user` of `research_agent_scope.py` composed with the
reducers: route on the structured decision (a parameter: the constrained
inference response), appending the question or the verification as an
assistant message. -/
def clarify_with_user (response : ClarifyWithUser) (s : AgentState) :
    ScopeGoto × AgentState :=
  if response.need_clarification then
    (ScopeGoto.finish,
      { s with messages := s.messages ++ [mkAIMessage response.question []] })
  else
    (ScopeGoto.write_research_brief,
      { s with messages := s.messages ++ [mkAIMessage response.verification []] })

/-- `write_research_brief` of `research_agent_scope.py` composed with
the reducers: store the generated brief and seed the supervisor
transcript with it. -/
def write_research_brief (response : ResearchQuestion) (s : AgentState) : AgentState :=
  { s with research_brief := some response.research_brief,
           supervisor_messages :=
             s.supervisor_messages ++ [mkHumanMessage (response.research_brief ++ ".")] }

/-- The scoping graph (`START → clarify_with_user`,
`write_research_brief → END`): the boolean records whether the
brief-generation node was invoked. -/
def scopeRun (r1 : ClarifyWithUser) (r2 : ResearchQuestion) (s : AgentState) :
    Bool × AgentState :=
  let step1 := clarify_with_user r1 s
  match step1.fst with
  | ScopeGoto.finish => (false, step1.snd)
  | ScopeGoto.write_research_brief => (true, write_research_brief r2 step1.snd)

/-- One raw search result document of the Tavily response. -/
structure SearchResult where
  url : String
  title : String
  content : String
  raw_content : Option String
deriving DecidableEq

/-- One Tavily response (`result["results"]`) for one query. -/
structure SearchResponse where
  results : List SearchResult
deriving DecidableEq

/-- One processed entry of `process_search_results`. -/
structure ProcessedResult where
  title : String
  content : String
deriving DecidableEq

/-- `deduplicate_search_results` of `utils.py`: a url-keyed,
insertion-ordered map (Python dict) where the first occurrence of a url
wins; modelled as an association list. -/
def deduplicate_search_results (search_results : List SearchResponse) :
    List (String × SearchResult) :=
  search_results.foldl
    (fun unique_results response =>
      response.results.foldl
        (fun acc result =>
          if acc.any (fun p => p.fst == result.url) then acc
          else acc ++ [(result.url, result)])
        unique_results)
    []

/-- `process_search_results` of `utils.py`: summarize the raw content
when present and non-empty (Python truthiness of
`result.get("raw_content")`), otherwise pass the short content through
verbatim.  `summarize` models `summarize_webpage_content` (an external
inference call). -/
def process_search_results (summarize : String → String)
    (unique_results : List (String × SearchResult)) : List (String × ProcessedResult) :=
  unique_results.map (fun p =>
    let content :=
      match p.snd.raw_content with
      | none => p.snd.content
      | some raw => if raw = "" then p.snd.content else summarize raw
    (p.fst, { title := p.snd.title, content := content }))

/-- The fixed Korean fallback notice of `format_search_output`. -/
def searchFallbackMessage : String :=
  "유효한 검색 결과를 찾을 수 없습니다. 다른 검색 쿼리를 시도하거나 다른 검색 API를 사용해주세요."

/-- One formatted source block of `format_search_output`, 1-indexed. -/
def formatSourceBlock (i : Nat) (url : String) (r : ProcessedResult) : String :=
  "\n\n--- 소스 " ++ toString i ++ ": " ++ r.title ++ " ---\n" ++
  "URL: " ++ url ++ "\n\n" ++
  "요약:\n" ++ r.content ++ "\n\n" ++
  String.mk (List.replicate 80 '-') ++ "\n"

/-- `format_search_output` of `utils.py`: the fixed fallback notice when
no results survived deduplication, otherwise the numbered source
blocks. -/
def format_search_output (summarized_results : List (String × ProcessedResult)) : String :=
  if summarized_results.isEmpty then searchFallbackMessage
  else
    "검색 결과: \n\n" ++
    String.join ((summarized_results.enumFrom 1).map
      (fun p => formatSourceBlock p.fst p.snd.fst p.snd.snd))

/-- `tavily_search` of `utils.py` downstream of the network call: the
raw per-query responses are a parameter (external search gateway); they
are deduplicated by url, processed with summarization, and formatted. -/
def tavily_search (summarize : String → String)
    (search_results : List SearchResponse) : String :=
  format_search_output (process_search_results summarize
    (deduplicate_search_results search_results))

/-- Default worker result used to totalise the extraction of a result
from an `Except` value known to be `ok`. -/
def defaultResearcherResult : ResearcherResult :=
  { compressed_research := none, raw_notes := [] }

/-- The payload of an `Except` value known to be `ok`. -/
def okValue (x : Except String ResearcherResult) : ResearcherResult :=
  match x with
  | Except.ok r => r
  | Except.error _ => defaultResearcherResult

/-- The result of the worker spawned for one `ConductResearch` call: a
function of the call's own topic only. -/
def workerResult (workerRun : ResearcherInput → Except String ResearcherResult)
    (tc : ToolCall) : ResearcherResult :=
  okValue (workerRun (mkResearcherInput tc.args.research_topic))

/-- The tool-result content of one delegation: the worker's compressed
synthesis, or the literal fallback sentinel of `supervisor_tools`. -/
def workerNote (workerRun : ResearcherInput → Except String ResearcherResult)
    (tc : ToolCall) : String :=
  (workerResult workerRun tc).compressed_research.getD "Error synthesizing research report"

/-- The raw-note blob of one delegation: the worker's raw notes joined
with newlines. -/
def workerRawBlob (workerRun : ResearcherInput → Except String ResearcherResult)
    (tc : ToolCall) : String :=
  String.intercalate "\n" (workerResult workerRun tc).raw_notes

/-- Invariant of the supervisor graph: the counter is strictly below
the budget on entry to the planning node and within the budget
elsewhere. -/
def supervisorInv : SupervisorNode × SupervisorState → Prop
  | (SupervisorNode.supervisor, s) => s.research_iterations < max_researcher_iterations
  | (SupervisorNode.supervisor_tools, s) => s.research_iterations ≤ max_researcher_iterations
  | (SupervisorNode.finish, s) => s.research_iterations ≤ max_researcher_iterations

/-- The termination condition of an executing step: budget exceeded, no
tool calls, a `ResearchComplete` call, or failing tool execution. -/
def terminationCondition (workerRun : ResearcherInput → Except String ResearcherResult)
    (order : List Nat) (s : SupervisorState) : Prop :=
  max_researcher_iterations ≤ s.research_iterations ∨
  (lastSupervisorMessage s).tool_calls = [] ∨
  (∃ tc ∈ (lastSupervisorMessage s).tool_calls, tc.name = "ResearchComplete") ∨
  (∃ e, executeTools workerRun order (lastSupervisorMessage s) = Except.error e)

/-- The spec's description of a worker's raw notes: the content of
every tool-type and assistant-type message of the private transcript,
in transcript order. -/
def specRawNoteContents : List Message → List String
  | [] => []
  | m :: ms =>
    if m.role = Role.tool ∨ m.role = Role.ai then m.content :: specRawNoteContents ms
    else specRawNoteContents ms

/-- A `ConductResearch` tool call with the given topic and id. -/
def conductCall (topic callId : String) : ToolCall :=
  { name := "ConductResearch", args := { research_topic := topic, reflection := "" },
    id := callId }

/-- A `think_tool` call used to drive the worker loop forever. -/
def loopToolCall : ToolCall :=
  { name := "think_tool", args := { research_topic := "", reflection := "계속" },
    id := "loop-1" }

/-- A worker LLM oracle that requests a `think_tool` call on every
turn. -/
def alwaysThinkLLM : List Message → Message :=
  fun _ => mkAIMessage "" [loopToolCall]

/-- The deterministic tool dispatch restricted to `think_tool`. -/
def thinkOnlyExec : ToolCall → String :=
  fun tc => think_tool tc.args.reflection

/-- Concrete initial supervisor state for the C1 witness run. -/
def c1InitialState : SupervisorState :=
  { supervisor_messages := [], research_brief := none, notes := [],
    research_iterations := 0, raw_notes := [] }

/-- Concrete assistant response with no tool calls for the C1 witness
run. -/
def c1Response : Message := mkAIMessage "done" []

/-- Worker gateway of the C1 witness run (never reached). -/
def c1WorkerRun : ResearcherInput → Except String ResearcherResult :=
  fun _ => Except.error ""

/-- Final state of the two-step C1 witness run. -/
def c1FinalState : SupervisorState :=
  (supervisorToolsStep c1WorkerRun [] (supervisorNode c1Response c1InitialState)).snd

/-- Concrete supervisor state for the C2 witness: one assistant message
with an empty tool-call list. -/
def c2State : SupervisorState :=
  { supervisor_messages := [mkAIMessage "" []], research_brief := none, notes := [],
    research_iterations := 0, raw_notes := [] }

/-- Worker gateway of the C2 witness. -/
def c2WorkerRun : ResearcherInput → Except String ResearcherResult :=
  fun _ => Except.error "e"

/-- Worker gateway of the C3 witness: succeeds on every topic with a
topic-derived synthesis and raw note. -/
def c3WorkerRun : ResearcherInput → Except String ResearcherResult :=
  fun inp =>
    Except.ok { compressed_research := some ("res-" ++ inp.research_topic),
                raw_notes := ["note-" ++ inp.research_topic] }

/-- Assistant message of the C3 witness: three delegation calls A, B, C
in order. -/
def c3Message : Message :=
  mkAIMessage "" [conductCall "tA" "A", conductCall "tB" "B", conductCall "tC" "C"]

/-- Assistant message of the C4 witness: two delegation calls. -/
def c4Message : Message :=
  mkAIMessage "" [conductCall "t1" "A", conductCall "t2" "B"]

/-- Assistant message of the C4 witness with the sibling topic
changed. -/
def c4MessageAlt : Message :=
  mkAIMessage "" [conductCall "t1" "A", conductCall "other-topic" "B"]

/-- Worker gateway of the C4 witness. -/
def c4WorkerRun : ResearcherInput → Except String ResearcherResult :=
  fun inp =>
    Except.ok { compressed_research := some inp.research_topic, raw_notes := [] }

/-- Concrete supervisor state for the C5 witness: the budget is
exhausted and the transcript holds one earlier tool result. -/
def c5State : SupervisorState :=
  { supervisor_messages :=
      [mkToolMessage "earlier note" "ConductResearch" "A",
       mkAIMessage "" [conductCall "t" "B"]],
    research_brief := some "the brief", notes := [],
    research_iterations := 6, raw_notes := [] }

/-- Worker gateway of the C5 witness. -/
def c5WorkerRun : ResearcherInput → Except String ResearcherResult :=
  fun _ => Except.error ""

/-- Concrete supervisor state for the C6 witness: one delegation call
pending with one earlier tool result in the transcript. -/
def c6State : SupervisorState :=
  { supervisor_messages :=
      [mkToolMessage "partial note" "ConductResearch" "A",
       mkAIMessage "" [conductCall "t" "B"]],
    research_brief := some "the brief", notes := [],
    research_iterations := 2, raw_notes := [] }

/-- Worker gateway of the C6 witness: every worker run raises. -/
def c6WorkerRun : ResearcherInput → Except String ResearcherResult :=
  fun _ => Except.error "boom"

/-- Search responses of the C10 witness: one query that returned no
documents. -/
def c10SearchResults : List SearchResponse := [{ results := [] }]

/-- Any entry of a completion log carries the result of its own task
index. -/
theorem scheduleOf_mem {α : Type} {results : List α} {order : List Nat} {i : Nat} {r : α}
    (h : (i, r) ∈ scheduleOf results order) : results[i]? = some r := by
  unfold scheduleOf at h
  rw [List.mem_filterMap] at h
  obtain ⟨j, _, hmap⟩ := h
  cases hget : results[j]? with
  | none => rw [hget] at hmap; simp at hmap
  | some a =>
    rw [hget] at hmap
    simp only [Option.map_some'] at hmap
    obtain ⟨hj, ha⟩ := Prod.mk.injEq .. ▸ (Option.some.injEq .. ▸ hmap)
    rw [← hj, hget, ha]

/-- Congruence of `filterMap` on pointwise-equal functions. -/
theorem filterMap_congr_mem {α β : Type} :
    ∀ (l : List α) (f g : α → Option β), (∀ a ∈ l, f a = g a) →
      l.filterMap f = l.filterMap g
  | [], _, _, _ => rfl
  | a :: l, f, g, h => by
    rw [List.filterMap_cons, List.filterMap_cons, h a (List.mem_cons_self a l),
      filterMap_congr_mem l f g (fun x hx => h x (List.mem_cons_of_mem a hx))]

/-- Collecting the optional lookups of every index in order
reconstructs the list. -/
theorem filterMap_range_getElem {α : Type} :
    ∀ (results : List α),
      (List.range results.length).filterMap (fun i => results[i]?) = results
  | [] => rfl
  | a :: results => by
    rw [List.length_cons, List.range_succ_eq_map, List.filterMap_cons]
    simp only [List.getElem?_cons_zero, List.filterMap_map]
    have hcomp : ((fun i => (a :: results)[i]?) ∘ Nat.succ) = (fun i => results[i]?) := by
      funext i
      simp [List.getElem?_cons_succ]
    rw [hcomp, filterMap_range_getElem results]

/-- Joining a completion log whose completion order is any permutation
of the task indices yields the results in task order: the
`asyncio.gather` ordering guarantee. -/
theorem asyncGather_scheduleOf {α : Type} (results : List α) (order : List Nat)
    (hperm : order.Perm (List.range results.length)) :
    asyncGather (scheduleOf results order) results.length = results := by
  unfold asyncGather
  have key : ∀ i ∈ List.range results.length,
      ((scheduleOf results order).find? (fun c => c.fst == i)).map (fun c => c.snd) =
        results[i]? := by
    intro i hi
    have hilt : i < results.length := List.mem_range.mp hi
    have hmem : i ∈ order := hperm.mem_iff.mpr hi
    obtain ⟨r, hr⟩ : ∃ r, results[i]? = some r :=
      ⟨results[i], List.getElem?_eq_getElem hilt⟩
    have hsched : (i, r) ∈ scheduleOf results order := by
      unfold scheduleOf
      rw [List.mem_filterMap]
      exact ⟨i, hmem, by rw [hr]; rfl⟩
    have hfound : ∃ p, (scheduleOf results order).find? (fun c => c.fst == i) = some p := by
      rw [← Option.isSome_iff_exists, List.find?_isSome]
      exact ⟨(i, r), hsched, by simp⟩
    obtain ⟨p, hp⟩ := hfound
    have hpi : p.fst = i := by
      have := List.find?_some hp
      simpa using this
    have hpm : results[p.fst]? = some p.snd :=
      scheduleOf_mem (by simpa using List.mem_of_find?_eq_some hp)
    rw [hp, Option.map_some', hr]
    rw [hpi] at hpm
    rw [hpm] at hr
    exact hr
  rw [filterMap_congr_mem _ _ (fun i => results[i]?) key, filterMap_range_getElem]

/-- Sequencing a batch of calls that all succeed yields the list of
their payloads, in call order. -/
theorem sequenceExcept_ok {β : Type} (f : β → Except String ResearcherResult) :
    ∀ (l : List β), (∀ x ∈ l, ∃ r, f x = Except.ok r) →
      sequenceExcept (l.map f) = Except.ok (l.map (fun x => okValue (f x)))
  | [], _ => rfl
  | x :: l, h => by
    obtain ⟨r, hr⟩ := h x (List.mem_cons_self x l)
    rw [List.map_cons, List.map_cons]
    unfold sequenceExcept
    rw [hr, sequenceExcept_ok f l (fun y hy => h y (List.mem_cons_of_mem x hy))]
    simp [okValue, hr]

/-- Zipping a mapped list with the original pairs every element with
its own image. -/
theorem zip_map_self {α β : Type} (f : α → β) :
    ∀ (l : List α), (l.map f).zip l = l.map (fun a => (f a, a))
  | [] => rfl
  | a :: l => by
    rw [List.map_cons, List.map_cons, List.zip_cons_cons, zip_map_self f l]

/-- The result of `supervisor_tools` is either the terminating command
with the end update, or — when the budget is not exhausted and
execution succeeded — the continuing command with the tool messages and
raw notes. -/
theorem supervisor_tools_cases
    (workerRun : ResearcherInput → Except String ResearcherResult)
    (order : List Nat) (s : SupervisorState) :
    supervisor_tools workerRun order s = (SupervisorGoto.finish, supervisorEndUpdate s) ∨
    (s.research_iterations < max_researcher_iterations ∧
      ∃ tm rn, executeTools workerRun order (lastSupervisorMessage s) = Except.ok (tm, rn) ∧
        supervisor_tools workerRun order s =
          (SupervisorGoto.supervisor, supervisorContinueUpdate tm rn)) := by
  simp only [supervisor_tools]
  split
  · exact Or.inl rfl
  · next hc =>
    have hlt : s.research_iterations < max_researcher_iterations := by
      rcases Nat.lt_or_ge s.research_iterations max_researcher_iterations with h | h
      · exact h
      · exact absurd (by simp [h]) hc
    split
    · exact Or.inl rfl
    · next tm rn heq => exact Or.inr ⟨hlt, tm, rn, heq, rfl⟩

/-- The terminating update leaves the round counter unchanged. -/
theorem applyEndUpdate_iterations (s : SupervisorState) :
    (applySupervisorUpdate s (supervisorEndUpdate s)).research_iterations =
      s.research_iterations := rfl

/-- The continuing update leaves the round counter unchanged. -/
theorem applyContinueUpdate_iterations (s : SupervisorState) (tm : List Message)
    (rn : List String) :
    (applySupervisorUpdate s (supervisorContinueUpdate tm rn)).research_iterations =
      s.research_iterations := rfl

/-- One graph step preserves the supervisor invariant. -/
theorem supervisorInv_step {c cNext : SupervisorNode × SupervisorState}
    (h : SupervisorRunStep c cNext) (hInv : supervisorInv c) : supervisorInv cNext := by
  cases h with
  | plan response s =>
    have hit : (supervisorNode response s).research_iterations = s.research_iterations + 1 := rfl
    simp only [supervisorInv] at hInv ⊢
    omega
  | tools workerRun order s =>
    simp only [supervisorInv] at hInv
    rcases supervisor_tools_cases workerRun order s with hcase | ⟨hlt, tm, rn, _, hcase⟩
    · simp only [supervisorToolsStep, hcase, nodeOfGoto, supervisorInv,
        applyEndUpdate_iterations]
      exact hInv
    · simp only [supervisorToolsStep, hcase, nodeOfGoto, supervisorInv,
        applyContinueUpdate_iterations]
      exact hlt

/-- The invariant propagates along any run of the supervisor graph. -/
theorem supervisorInv_run {a b : SupervisorNode × SupervisorState}
    (hab : Relation.ReflTransGen SupervisorRunStep a b) (ha : supervisorInv a) :
    supervisorInv b := by
  induction hab with
  | refl => exact ha
  | tail _ hstep ih => exact supervisorInv_step hstep ih

/-- C1: for every supervisor run that reaches the terminal state from a
zero round counter, the counter at termination is at most
`max_researcher_iterations = 6`; moreover the planning node increments
the counter by exactly one, and the executing node terminates whenever
the counter has reached the maximum. -/
theorem supervisor_iteration_bound (s0 sf : SupervisorState)
    (h0 : s0.research_iterations = 0)
    (hrun : Relation.ReflTransGen SupervisorRunStep (SupervisorNode.supervisor, s0)
      (SupervisorNode.finish, sf)) :
    sf.research_iterations ≤ max_researcher_iterations ∧
    (∀ (response : Message) (s : SupervisorState),
      (supervisorNode response s).research_iterations = s.research_iterations + 1) ∧
    (∀ (workerRun : ResearcherInput → Except String ResearcherResult)
        (order : List Nat) (s : SupervisorState),
      max_researcher_iterations ≤ s.research_iterations →
        (supervisor_tools workerRun order s).fst = SupervisorGoto.finish) := by
  refine ⟨?_, fun response s => rfl, ?_⟩
  · have hstart : supervisorInv (SupervisorNode.supervisor, s0) := by
      simp [supervisorInv, h0, max_researcher_iterations]
    exact supervisorInv_run hrun hstart
  · intro workerRun order s hge
    simp only [supervisor_tools]
    rw [if_pos]
    simp [hge]

/-- Closed two-step run discharging the hypotheses of
`supervisor_iteration_bound`: the assistant answers the first planning
step with no tool calls, so the run terminates with counter 1. -/
theorem supervisor_iteration_bound_witness :
    c1FinalState.research_iterations ≤ max_researcher_iterations := by
  have h1 : SupervisorRunStep (SupervisorNode.supervisor, c1InitialState)
      (SupervisorNode.supervisor_tools, supervisorNode c1Response c1InitialState) :=
    SupervisorRunStep.plan c1Response c1InitialState
  have h2 : SupervisorRunStep
      (SupervisorNode.supervisor_tools, supervisorNode c1Response c1InitialState)
      (SupervisorNode.finish, c1FinalState) := by
    have hs := SupervisorRunStep.tools c1WorkerRun [] (supervisorNode c1Response c1InitialState)
    have he : supervisorToolsStep c1WorkerRun [] (supervisorNode c1Response c1InitialState) =
        (SupervisorNode.finish, c1FinalState) := rfl
    rwa [he] at hs
  exact (supervisor_iteration_bound c1InitialState c1FinalState rfl
    (Relation.ReflTransGen.head h1 (Relation.ReflTransGen.single h2))).1

/-- C2: an executing step transitions to the terminal state exactly when
the budget is exhausted, the most recent assistant message carries no
tool calls, it carries a `ResearchComplete` call, or tool execution
raised; otherwise it returns to the planning node. -/
theorem supervisor_tools_finish_iff
    (workerRun : ResearcherInput → Except String ResearcherResult)
    (order : List Nat) (s : SupervisorState)
    (hne : s.supervisor_messages ≠ []) :
    ((supervisor_tools workerRun order s).fst = SupervisorGoto.finish ↔
      terminationCondition workerRun order s) ∧
    ((supervisor_tools workerRun order s).fst = SupervisorGoto.supervisor ↔
      ¬ terminationCondition workerRun order s) := by
  have main : (supervisor_tools workerRun order s).fst = SupervisorGoto.finish ↔
      terminationCondition workerRun order s := by
    unfold terminationCondition
    simp only [supervisor_tools]
    split
    · next hc =>
      simp only [Bool.or_eq_true, decide_eq_true_eq, List.isEmpty_iff,
        List.any_eq_true, beq_iff_eq] at hc
      constructor
      · intro _
        rcases hc with (h | h) | h
        · exact Or.inl h
        · exact Or.inr (Or.inl h)
        · exact Or.inr (Or.inr (Or.inl h))
      · intro _
        rfl
    · next hc =>
      simp only [Bool.or_eq_true, decide_eq_true_eq, List.isEmpty_iff,
        List.any_eq_true, beq_iff_eq, not_or] at hc
      obtain ⟨⟨ha, hb⟩, hcc⟩ := hc
      split
      · next e herr =>
        simp only [true_iff]
        exact Or.inr (Or.inr (Or.inr ⟨e, herr⟩))
      · next tm rn hok =>
        constructor
        · intro hcontra
          cases hcontra
        · intro hcond
          exfalso
          rcases hcond with h | h | h | ⟨e, he⟩
          · exact ha h
          · exact hb h
          · exact hcc h
          · rw [he] at hok
            cases hok
  refine ⟨main, ?_⟩
  rw [← main]
  cases hg : (supervisor_tools workerRun order s).fst <;> simp [hg]

/-- Closed instance of `supervisor_tools_finish_iff` at a state whose
most recent assistant message carries an empty tool-call list and whose
counter is 0: the step still terminates. -/
theorem supervisor_tools_finish_iff_witness :
    c2State.supervisor_messages ≠ [] ∧
    (((supervisor_tools c2WorkerRun [] c2State).fst = SupervisorGoto.finish ↔
        terminationCondition c2WorkerRun [] c2State) ∧
      ((supervisor_tools c2WorkerRun [] c2State).fst = SupervisorGoto.supervisor ↔
        ¬ terminationCondition c2WorkerRun [] c2State)) :=
  ⟨by simp [c2State], supervisor_tools_finish_iff c2WorkerRun [] c2State (by simp [c2State])⟩

/-- C5: whenever an executing step terminates, its update carries as
notes the contents of every tool-type message of the coordination
transcript, in transcript order, together with the research brief of
the state (defaulting to the empty string). -/
theorem finish_update_notes
    (workerRun : ResearcherInput → Except String ResearcherResult)
    (order : List Nat) (s : SupervisorState)
    (hfin : (supervisor_tools workerRun order s).fst = SupervisorGoto.finish) :
    (supervisor_tools workerRun order s).snd.notes =
      (s.supervisor_messages.filter (fun msg => msg.role == Role.tool)).map
        (fun msg => msg.content) ∧
    (supervisor_tools workerRun order s).snd.research_brief =
      some (s.research_brief.getD "") := by
  rcases supervisor_tools_cases workerRun order s with hcase | ⟨_, tm, rn, _, hcase⟩
  · rw [hcase]
    exact ⟨rfl, rfl⟩
  · rw [hcase] at hfin
    cases hfin

/-- Closed instance of `finish_update_notes` at a state with an
exhausted budget: the update carries the earlier tool note and the
stored brief. -/
theorem finish_update_notes_witness :
    ((supervisor_tools c5WorkerRun [] c5State).fst = SupervisorGoto.finish) ∧
    (supervisor_tools c5WorkerRun [] c5State).snd.notes =
      (c5State.supervisor_messages.filter (fun msg => msg.role == Role.tool)).map
        (fun msg => msg.content) ∧
    (supervisor_tools c5WorkerRun [] c5State).snd.research_brief =
      some (c5State.research_brief.getD "") :=
  ⟨rfl, finish_update_notes c5WorkerRun [] c5State rfl⟩

/-- C6: if executing the tool calls raises, the executing step returns
(rather than re-raising) the terminating command whose update carries
the notes of the transcript as it stood before the step plus the
existing brief. -/
theorem tool_error_terminates
    (workerRun : ResearcherInput → Except String ResearcherResult)
    (order : List Nat) (s : SupervisorState) (e : String)
    (herr : executeTools workerRun order (lastSupervisorMessage s) = Except.error e) :
    supervisor_tools workerRun order s = (SupervisorGoto.finish, supervisorEndUpdate s) ∧
    (supervisorEndUpdate s).notes = get_notes_from_tool_calls s.supervisor_messages ∧
    (supervisorEndUpdate s).research_brief = some (s.research_brief.getD "") := by
  rcases supervisor_tools_cases workerRun order s with hcase | ⟨_, tm, rn, hok, _⟩
  · exact ⟨hcase, rfl, rfl⟩
  · rw [herr] at hok
    cases hok

/-- Closed instance of `tool_error_terminates`: a worker gateway that
raises on every delegation forces immediate termination with the
partial note and the stored brief. -/
theorem tool_error_terminates_witness :
    (executeTools c6WorkerRun [] (lastSupervisorMessage c6State) = Except.error "boom") ∧
    supervisor_tools c6WorkerRun [] c6State = (SupervisorGoto.finish, supervisorEndUpdate c6State) ∧
    (supervisorEndUpdate c6State).notes = get_notes_from_tool_calls c6State.supervisor_messages ∧
    (supervisorEndUpdate c6State).research_brief = some (c6State.research_brief.getD "") :=
  ⟨rfl, tool_error_terminates c6WorkerRun [] c6State "boom" rfl⟩

/-- C3: for any completion order of the concurrently dispatched workers
(any permutation of the delegation indices), the tool-result messages
appended by an executing step are in the original call order, each
correlated to its own call id and carrying its own worker's synthesis,
and the raw-note blobs follow the same call order. -/
theorem delegation_results_in_call_order
    (workerRun : ResearcherInput → Except String ResearcherResult)
    (order : List Nat) (m : Message)
    (hperm : order.Perm (List.range (conductResearchCalls m).length))
    (hok : ∀ tc ∈ conductResearchCalls m,
      ∃ r, workerRun (mkResearcherInput tc.args.research_topic) = Except.ok r) :
    executeTools workerRun order m =
      Except.ok
        (thinkToolMessages m ++
          (conductResearchCalls m).map
            (fun tc => mkToolMessage (workerNote workerRun tc) tc.name tc.id),
         (conductResearchCalls m).map (fun tc => workerRawBlob workerRun tc)) := by
  have hseq : sequenceExcept ((workerInputs m).map workerRun) =
      Except.ok ((conductResearchCalls m).map (workerResult workerRun)) := by
    unfold workerInputs
    rw [List.map_map]
    exact sequenceExcept_ok _ _ hok
  have hgather :
      asyncGather
        (scheduleOf ((conductResearchCalls m).map (workerResult workerRun)) order)
        (conductResearchCalls m).length =
      (conductResearchCalls m).map (workerResult workerRun) := by
    have hg := asyncGather_scheduleOf ((conductResearchCalls m).map (workerResult workerRun))
      order (by rwa [List.length_map])
    rwa [List.length_map] at hg
  simp only [executeTools, hseq, hgather, zip_map_self, List.map_map]
  rfl

/-- Closed instance of `delegation_results_in_call_order`: three
delegation calls A, B, C completed in reverse order still yield tool
results in call order A, B, C. -/
theorem delegation_results_in_call_order_witness :
    ([2, 1, 0].Perm (List.range (conductResearchCalls c3Message).length)) ∧
    executeTools c3WorkerRun [2, 1, 0] c3Message =
      Except.ok
        (thinkToolMessages c3Message ++
          (conductResearchCalls c3Message).map
            (fun tc => mkToolMessage (workerNote c3WorkerRun tc) tc.name tc.id),
         (conductResearchCalls c3Message).map (fun tc => workerRawBlob c3WorkerRun tc)) :=
  ⟨by decide,
   delegation_results_in_call_order c3WorkerRun [2, 1, 0] c3Message (by decide)
     (fun tc _ => ⟨_, rfl⟩)⟩

/-- C4: the worker spawned for the i-th delegation call is seeded with a
private transcript containing only its own topic, and its input and
output are unchanged when any sibling call's topic changes. -/
theorem worker_isolation
    (workerRun : ResearcherInput → Except String ResearcherResult)
    (m mAlt : Message) (i : Nat) (tc tcAlt : ToolCall)
    (h : (conductResearchCalls m)[i]? = some tc)
    (hAlt : (conductResearchCalls mAlt)[i]? = some tcAlt)
    (htopic : tc.args.research_topic = tcAlt.args.research_topic) :
    (workerInputs m)[i]? = some (mkResearcherInput tc.args.research_topic) ∧
    (mkResearcherInput tc.args.research_topic).researcher_messages =
      [mkHumanMessage tc.args.research_topic] ∧
    (workerInputs m)[i]? = (workerInputs mAlt)[i]? ∧
    ((workerInputs m)[i]?).map workerRun = ((workerInputs mAlt)[i]?).map workerRun := by
  have h1 : (workerInputs m)[i]? = some (mkResearcherInput tc.args.research_topic) := by
    unfold workerInputs
    rw [List.getElem?_map, h]
    rfl
  have h2 : (workerInputs mAlt)[i]? = some (mkResearcherInput tcAlt.args.research_topic) := by
    unfold workerInputs
    rw [List.getElem?_map, hAlt]
    rfl
  refine ⟨h1, rfl, ?_, ?_⟩
  · rw [h1, h2, htopic]
  · rw [h1, h2, htopic]

/-- Closed instance of `worker_isolation`: the first worker of two
concurrent delegations has the same seed and output whether its sibling
researches `t2` or `other-topic`. -/
theorem worker_isolation_witness :
    ((conductResearchCalls c4Message)[0]? = some (conductCall "t1" "A")) ∧
    ((conductResearchCalls c4MessageAlt)[0]? = some (conductCall "t1" "A")) ∧
    ((workerInputs c4Message)[0]? = some (mkResearcherInput "t1") ∧
      (mkResearcherInput "t1").researcher_messages = [mkHumanMessage "t1"] ∧
      (workerInputs c4Message)[0]? = (workerInputs c4MessageAlt)[0]? ∧
      ((workerInputs c4Message)[0]?).map c4WorkerRun =
        ((workerInputs c4MessageAlt)[0]?).map c4WorkerRun) :=
  ⟨rfl, rfl,
   worker_isolation c4WorkerRun c4Message c4MessageAlt 0
     (conductCall "t1" "A") (conductCall "t1" "A") rfl rfl rfl⟩

/-- C7 (refuting the claimed bound): no node of the worker graph ever
modifies `tool_call_iterations`, and with an LLM oracle that requests a
`think_tool` call on every turn the loop is still running after 7 full
thinking/acting rounds — more than `max_researcher_iterations = 6` —
with the counter still at its initial value 0.  The claimed fixed
maximum is never enforced. -/
theorem worker_iteration_counter_never_enforced :
    (∀ (llm : List Message → Message) (execTool : ToolCall → String)
        (compressLLM : List Message → String) (c : ResearcherNode × ResearcherState),
      (researcherStep llm execTool compressLLM c).snd.tool_call_iterations =
        c.snd.tool_call_iterations) ∧
    ((researcherStep alwaysThinkLLM thinkOnlyExec (fun _ => ""))^[14]
        (ResearcherNode.llm_call, initialResearcherState "topic")).fst =
      ResearcherNode.llm_call ∧
    ((researcherStep alwaysThinkLLM thinkOnlyExec (fun _ => ""))^[14]
        (ResearcherNode.llm_call, initialResearcherState "topic")).snd.tool_call_iterations
      = 0 ∧
    countAssistantMessages
      ((researcherStep alwaysThinkLLM thinkOnlyExec (fun _ => ""))^[14]
        (ResearcherNode.llm_call, initialResearcherState "topic")).snd.researcher_messages
      = 7 ∧
    max_researcher_iterations < 7 := by
  refine ⟨?_, rfl, rfl, rfl, by decide⟩
  intro llm execTool compressLLM c
  obtain ⟨node, s⟩ := c
  cases node with
  | llm_call =>
    simp only [researcherStep]
    split <;> rfl
  | tool_node => rfl
  | compress_research => rfl
  | finish => rfl

/-- C8: the scoping stage is binary — with `need_clarification = true`
it appends the question as an assistant message and ends without ever
invoking the brief-generation node; with `need_clarification = false`
it appends the verification message and always invokes the
brief-generation node, which stores the brief and seeds the supervisor
transcript with it. -/
theorem scoping_binary_routing (r1 : ClarifyWithUser) (r2 : ResearchQuestion)
    (s : AgentState) :
    ((scopeRun r1 r2 s).fst = !r1.need_clarification) ∧
    (scopeRun r1 r2 s).snd =
      (if r1.need_clarification then
        { messages := s.messages ++ [mkAIMessage r1.question []],
          research_brief := s.research_brief,
          supervisor_messages := s.supervisor_messages }
      else
        { messages := s.messages ++ [mkAIMessage r1.verification []],
          research_brief := some r2.research_brief,
          supervisor_messages :=
            s.supervisor_messages ++ [mkHumanMessage (r2.research_brief ++ ".")] }) := by
  cases h : r1.need_clarification <;>
    simp [scopeRun, clarify_with_user, write_research_brief, h]

/-- C9: the synthesizing step outputs the compressed synthesis of the
final inference call together with a one-element raw-notes list whose
single element is the newline-joined contents of every tool-type and
assistant-type message of the private transcript, in transcript
order. -/
theorem compress_research_raw_notes (response : String) (s : ResearcherState) :
    compress_research response s =
      { compressed_research := response,
        raw_notes :=
          [String.intercalate "\n" (specRawNoteContents s.researcher_messages)] } := by
  unfold compress_research
  have hfilter : ∀ (l : List Message),
      ((l.filter (fun m => m.role == Role.tool || m.role == Role.ai)).map
        (fun m => m.content)) = specRawNoteContents l := by
    intro l
    induction l with
    | nil => rfl
    | cons m l ih =>
      simp only [specRawNoteContents, List.filter_cons]
      by_cases h : (m.role == Role.tool || m.role == Role.ai) = true
      · rw [if_pos h, List.map_cons, ih, if_pos]
        simpa using h
      · rw [if_neg h, ih, if_neg]
        simpa using h
  rw [hfilter]

/-- C10: a search invocation whose deduplicated result set is empty
returns the fixed non-empty Korean fallback notice, not an empty string
or an error. -/
theorem empty_search_fallback (summarize : String → String)
    (search_results : List SearchResponse)
    (hempty : deduplicate_search_results search_results = []) :
    tavily_search summarize search_results = searchFallbackMessage ∧
    searchFallbackMessage ≠ "" := by
  constructor
  · unfold tavily_search
    rw [hempty]
    rfl
  · intro h
    exact absurd (congrArg String.length h) (by decide)

/-- Closed instance of `empty_search_fallback`: one query with zero
result documents yields the fallback notice. -/
theorem empty_search_fallback_witness :
    (deduplicate_search_results c10SearchResults = []) ∧
    tavily_search (fun x => x) c10SearchResults = searchFallbackMessage ∧
    searchFallbackMessage ≠ "" :=
  ⟨rfl, empty_search_fallback (fun x => x) c10SearchResults rfl⟩

end DeepResearch
